import Mathlib

/-!
Verification of the JYAML reference implementation (Python, `src/jyaml/`).

The definitions below are a shallow embedding of `lexer.py`, `parser.py`,
`options.py`, `loader.py` and `types.py`: each Lean definition mirrors the
corresponding Python function, statement for statement.  Python strings are
modelled as Lean `String`/`List Char`, Python `int` as `Int`, Python dicts as
insertion-ordered association lists with last-write-wins update.  Python
`float` is the one thing not modelled: a float-valued number retains its
source lexeme in an opaque wrapper, and no theorem depends on float decoding
or float formatting.  Unbounded `while` loops are driven by an explicit fuel
argument; every concrete evaluation supplies fuel larger than the input, and
fuel exhaustion surfaces as a distinguished error that no theorem treats as
the program's behaviour.
-/

namespace JYaml

/-- Token kinds, mirroring `TokenType` in `lexer.py`. -/
inductive TokenType where
  | NULL | TRUE | FALSE | NUMBER | STRING
  | COLON | COMMA | LEFT_BRACKET | RIGHT_BRACKET | LEFT_BRACE | RIGHT_BRACE
  | DASH | PIPE | PIPE_STRIP | GREATER | GREATER_STRIP
  | NEWLINE | INDENT | COMMENT | EOF
deriving DecidableEq, Repr

/-- The `value` string of each `TokenType` member in `lexer.py` (used in
`Parser.expect` error messages). -/
def TokenType.pyValue : TokenType → String
  | .NULL => "null"
  | .TRUE => "true"
  | .FALSE => "false"
  | .NUMBER => "number"
  | .STRING => "string"
  | .COLON => ":"
  | .COMMA => ","
  | .LEFT_BRACKET => "["
  | .RIGHT_BRACKET => "]"
  | .LEFT_BRACE => "\x7b"
  | .RIGHT_BRACE => "\x7d"
  | .DASH => "-"
  | .PIPE => "|"
  | .PIPE_STRIP => "|-"
  | .GREATER => ">"
  | .GREATER_STRIP => ">-"
  | .NEWLINE => "newline"
  | .INDENT => "indent"
  | .COMMENT => "comment"
  | .EOF => "eof"

/-- A lexer token: `Token` in `lexer.py` (kind, decoded value, 1-based position). -/
structure Token where
  type : TokenType
  value : String
  line : Nat
  column : Nat
deriving DecidableEq, Repr

/-- `LexerError(message, line, column)` from `lexer.py`. -/
structure LexerError where
  msg : String
  line : Nat
  column : Nat
deriving DecidableEq, Repr

/-- `ParseError` from `parser.py`: a message plus an optional token position
(`line`/`column` are `None` when the error was raised without a token). -/
structure ParseError where
  msg : String
  line : Option Nat
  column : Option Nat
deriving DecidableEq, Repr

/-- Number payload of `JYAMLNumber`.  The parser decodes a lexeme without
`.`/`e`/`E` through Python `int(...)`; any other lexeme goes through Python
`float(...)`.  IEEE-754 semantics are not modelled: the float case keeps the
undecoded lexeme, and no theorem in this file depends on it. -/
inductive NumVal where
  | int (i : Int)
  | float (lexeme : String)
deriving DecidableEq, Repr

/-- The tagged value tree of `types.py` (`JYAMLNull`, `JYAMLBool`,
`JYAMLNumber`, `JYAMLString`, `JYAMLArray`, `JYAMLObject`).  Objects are
insertion-ordered key/value lists, mirroring the Python `dict`. -/
inductive JYAMLData where
  | null
  | bool (b : Bool)
  | num (v : NumVal)
  | str (s : String)
  | arr (xs : List JYAMLData)
  | obj (m : List (String × JYAMLData))

/-- Python `dict` assignment `items[key] = value`: replace the value of an
existing key in place (keeping its first-insertion position), else append. -/
def dictSet (m : List (String × JYAMLData)) (k : String) (v : JYAMLData) :
    List (String × JYAMLData) :=
  match m with
  | [] => [(k, v)]
  | (k', v') :: rest =>
    if k' = k then (k', v) :: rest else (k', v') :: dictSet rest k v

/-- `ParsedDocument` from `types.py`: fields `data`, `comments`,
`source_info`.  Note the Python model has no `comment_positions` field. -/
structure ParsedDocument where
  data : JYAMLData
  comments : List String
  source_info : Option Unit

/-- `ParseOptions` (`options.py`).  `normalize_line_endings` is kept as a
string because `Parser.__init__` tests its Python truthiness; the `Literal`
constraint is enforced by `ParseOptions.validate` below. -/
structure ParseOptions where
  strict_mode : Bool := true
  preserve_comments : Bool := true
  allow_duplicate_keys : Bool := false
  max_depth : Option Nat := some 1000
  include_comment_positions : Bool := false
  normalize_line_endings : String := "lf"
deriving DecidableEq, Repr

/-- Pydantic construction of `ParseOptions`: the `Field` constraints on
`max_depth` (`gt=0`, `le=100000`), the `Literal` constraint on
`normalize_line_endings`, and the `validate_consistency` model validator of
`options.py`, in that order. -/
def ParseOptions.validate (o : ParseOptions) : Except String ParseOptions :=
  if ¬ (o.normalize_line_endings = "none" ∨ o.normalize_line_endings = "lf" ∨
        o.normalize_line_endings = "crlf") then
    .error "Input should be none, lf or crlf"
  else if (match o.max_depth with
           | some d => !(decide (0 < d) && decide (d ≤ 100000))
           | none => false) then
    .error "max_depth out of range"
  else if o.strict_mode ∧ o.allow_duplicate_keys then
    .error "strict_mode and allow_duplicate_keys are incompatible"
  else if o.include_comment_positions ∧ ¬ o.preserve_comments then
    .error "include_comment_positions requires preserve_comments=True"
  else
    .ok o

/-- Native value produced by `loader.convert_to_python`.  `float` values keep
the opaque unmodelled representation of `NumVal.float`; `decimal` wraps the
argument string of `Decimal(str(v))`; `pydict` and `odict` distinguish
`dict` from `collections.OrderedDict`. -/
inductive PyValue where
  | none
  | bool (b : Bool)
  | int (i : Int)
  | float (lexeme : String)
  | decimal (s : String)
  | str (s : String)
  | list (xs : List PyValue)
  | pydict (m : List (String × PyValue))
  | odict (m : List (String × PyValue))

/-- `LoadOptions` (`options.py`).  The two hooks are typed functions, so
pydantic's `validate_callable` check can never fail in the model. -/
structure LoadOptions where
  as_dict : Bool := true
  as_native_types : Bool := true
  parse_numbers : Bool := true
  parse_booleans : Bool := true
  parse_null : Bool := true
  use_decimal : Bool := false
  use_ordered_dict : Bool := false
  object_hook : Option (List (String × PyValue) → PyValue) := none
  number_hook : Option (NumVal → PyValue) := none
  parse_options : Option ParseOptions := none

/-- `LoadOptions.validate_consistency` (`options.py`), including the silent
`as_dict := False` adjustment when `use_ordered_dict` is set. -/
def LoadOptions.validateConsistency (o : LoadOptions) : Except String LoadOptions :=
  if ¬ o.as_native_types ∧ (o.use_decimal ∨ o.use_ordered_dict) then
    .error "use_decimal and use_ordered_dict require as_native_types=True"
  else if o.use_decimal ∧ ¬ o.parse_numbers then
    .error "use_decimal requires parse_numbers=True"
  else if o.as_dict ∧ o.use_ordered_dict then
    .ok { o with as_dict := false }
  else
    .ok o

/-- Whether an `Except` result is a success. -/
def exceptOk {ε α : Type} : Except ε α → Bool
  | .ok _ => true
  | .error _ => false

/-! ## Lexer (`lexer.py`) -/

/-- Lexer cursor state: `text`, `position`, 1-based `line`/`column`, and the
`at_line_start` flag, exactly the attributes of the Python `Lexer`. -/
structure LexState where
  text : List Char
  pos : Nat
  line : Nat
  col : Nat
  atLineStart : Bool
deriving Repr

/-- `Lexer.current_char`. -/
def curChar (s : LexState) : Option Char := s.text.get? s.pos

/-- `Lexer.peek_char` (default offset 1). -/
def peekChar (s : LexState) (off : Nat := 1) : Option Char := s.text.get? (s.pos + off)

/-- `Lexer.advance`: step one character, updating line/column and setting
`at_line_start` on a newline (the flag is only ever cleared in `next_token`). -/
def advanceL (s : LexState) : LexState :=
  match s.text.get? s.pos with
  | Option.none => s
  | some c =>
    if c = '\n' then
      { s with pos := s.pos + 1, line := s.line + 1, col := 1, atLineStart := true }
    else
      { s with pos := s.pos + 1, col := s.col + 1 }

/-- Fuel-exhaustion marker; never the behaviour of the Python code. -/
def fuelLexErr : LexerError := ⟨"INTERNAL: out of fuel", 0, 0⟩

/-- `Lexer.skip_whitespace`: skip `' '`/`'\t'`/`'\r'`, failing on a tab. -/
def skip_whitespace : Nat → LexState → Except LexerError LexState
  | 0, _ => .error fuelLexErr
  | fuel + 1, s =>
    match curChar s with
    | some c =>
      if c = ' ' ∨ c = '\t' ∨ c = '\r' then
        if c = '\t' then .error ⟨"Tab character in indentation", s.line, s.col⟩
        else skip_whitespace fuel (advanceL s)
      else .ok s
    | Option.none => .ok s

/-- `Lexer.count_indent`: count leading spaces, failing on a tab right after. -/
def count_indent : Nat → LexState → Except LexerError (Nat × LexState)
  | 0, _ => .error fuelLexErr
  | fuel + 1, s =>
    if curChar s = some ' ' then
      match count_indent fuel (advanceL s) with
      | .ok (n, s') => .ok (n + 1, s')
      | .error e => .error e
    else if curChar s = some '\t' then
      .error ⟨"Tab character in indentation", s.line, s.col⟩
    else
      .ok (0, s)

/-- The escape table of `Lexer.read_string` (`\uXXXX` handled separately). -/
def escapeMap (c : Char) : Option Char :=
  if c = '"' then some '"'
  else if c = '\'' then some '\''
  else if c = '\\' then some '\\'
  else if c = '/' then some '/'
  else if c = 'b' then some (Char.ofNat 8)
  else if c = 'f' then some (Char.ofNat 12)
  else if c = 'n' then some '\n'
  else if c = 'r' then some '\r'
  else if c = 't' then some '\t'
  else Option.none

/-- Hexadecimal digit value, for `int(hex_digits, 16)`. -/
def hexVal (c : Char) : Option Nat :=
  if '0' ≤ c ∧ c ≤ '9' then some (c.toNat - '0'.toNat)
  else if 'a' ≤ c ∧ c ≤ 'f' then some (c.toNat - 'a'.toNat + 10)
  else if 'A' ≤ c ∧ c ≤ 'F' then some (c.toNat - 'A'.toNat + 10)
  else Option.none

/-- Read exactly four hex digits of a `\u` escape, as in `read_string`. -/
def readHex4 (errMsg : String) : Nat → Nat → Nat → LexState →
    Except LexerError (Nat × LexState)
  | 0, _, acc, s => .ok (acc, s)
  | k + 1, fuel, acc, s =>
    match curChar s with
    | some c =>
      match hexVal c with
      | some v => readHex4 errMsg k fuel (acc * 16 + v) (advanceL s)
      | Option.none => .error ⟨errMsg, s.line, s.col⟩
    | Option.none => .error ⟨errMsg, s.line, s.col⟩

/-- `Lexer._read_low_surrogate`. -/
def read_low_surrogate (s : LexState) : Except LexerError (Nat × LexState) :=
  if curChar s ≠ some '\\' then
    .error ⟨"Expected backslash for low surrogate", s.line, s.col⟩
  else
    let s1 := advanceL s
    if curChar s1 ≠ some 'u' then
      .error ⟨"Expected u for low surrogate", s1.line, s1.col⟩
    else
      let s2 := advanceL s1
      match readHex4 "Invalid unicode escape in low surrogate" 4 0 0 s2 with
      | .error e => .error e
      | .ok (low, s3) =>
        if 0xDC00 ≤ low ∧ low ≤ 0xDFFF then .ok (low, s3)
        else .error ⟨"Expected low surrogate (DC00-DFFF)", s3.line, s3.col⟩

/-- Loop body of `Lexer.read_string` (the opening quote is consumed by the
caller).  Terminates on the closing quote, consuming it. -/
def readStringLoop (q : Char) : Nat → List Char → LexState →
    Except LexerError (List Char × LexState)
  | 0, _, _ => .error fuelLexErr
  | fuel + 1, acc, s =>
    match curChar s with
    | Option.none => .error ⟨"Unterminated string", s.line, s.col⟩
    | some c =>
      if c = q then
        .ok (acc, advanceL s)
      else if c = '\\' then
        let s1 := advanceL s
        match curChar s1 with
        | Option.none => .error ⟨"Unterminated string", s1.line, s1.col⟩
        | some esc =>
          match escapeMap esc with
          | some r => readStringLoop q fuel (acc ++ [r]) (advanceL s1)
          | Option.none =>
            if esc = 'u' then
              let s2 := advanceL s1
              match readHex4 "Invalid unicode escape" 4 0 0 s2 with
              | .error e => .error e
              | .ok (cp, s3) =>
                if 0xD800 ≤ cp ∧ cp ≤ 0xDBFF then
                  match read_low_surrogate s3 with
                  | .error e => .error e
                  | .ok (low, s4) =>
                    let combined := 0x10000 + (cp - 0xD800) * 1024 + (low - 0xDC00)
                    readStringLoop q fuel (acc ++ [Char.ofNat combined]) s4
                else if 0xDC00 ≤ cp ∧ cp ≤ 0xDFFF then
                  .error ⟨"Unexpected low surrogate", s3.line, s3.col⟩
                else
                  readStringLoop q fuel (acc ++ [Char.ofNat cp]) s3
            else
              .error ⟨"Invalid escape sequence", s1.line, s1.col⟩
      else
        readStringLoop q fuel (acc ++ [c]) (advanceL s)

/-- `Lexer.read_string`: consume the opening quote and run the loop. -/
def read_string (q : Char) (fuel : Nat) (s : LexState) :
    Except LexerError (String × LexState) :=
  match readStringLoop q fuel [] (advanceL s) with
  | .ok (cs, s') => .ok (String.mk cs, s')
  | .error e => .error e

/-- Python `str.strip()` over the characters of a line. -/
def pyIsSpace (c : Char) : Bool :=
  c = ' ' ∨ c = '\t' ∨ c = '\n' ∨ c = '\r' ∨ c = Char.ofNat 11 ∨ c = Char.ofNat 12

/-- Python `str.strip()`. -/
def pyStrip (s : String) : String :=
  String.mk ((s.data.dropWhile pyIsSpace).reverse.dropWhile pyIsSpace).reverse

/-- Python `str.rstrip("\n")`. -/
def pyRstripNewlines (s : String) : String :=
  String.mk (s.data.reverse.dropWhile (· = '\n')).reverse

/-- Read the remainder of a line (up to, not including, a newline), as the
content-reading inner loop of `read_multiline_string`. -/
def readLineContent : Nat → List Char → LexState → (List Char × LexState)
  | 0, acc, s => (acc, s)
  | fuel + 1, acc, s =>
    match curChar s with
    | some c =>
      if c = '\n' then (acc, s)
      else readLineContent fuel (acc ++ [c]) (advanceL s)
    | Option.none => (acc, s)

/-- Line-collecting loop of `Lexer.read_multiline_string`.  Mirrors the
Python `while` body, including the position-only rewind (`self.position =
line_start_pos` does not restore line/column). -/
def multilineLoop : Nat → List String → Option Nat → LexState →
    Except LexerError (List String × LexState)
  | 0, _, _, _ => .error fuelLexErr
  | fuel + 1, lines, baseIndent, s =>
    match curChar s with
    | Option.none => .ok (lines, s)
    | some _ =>
      let lineStartPos := s.pos
      match count_indent (s.text.length + 2) s with
      | .error e => .error e
      | .ok (indent, s1) =>
        if curChar s1 = some '\n' ∨ curChar s1 = Option.none ∨ indent = 0 then
          if curChar s1 = some '\n' then
            multilineLoop fuel (lines ++ [""]) baseIndent (advanceL s1)
          else
            .ok (lines, { s1 with pos := lineStartPos })
        else
          match baseIndent with
          | some b =>
            if indent < b then
              .ok (lines, { s1 with pos := lineStartPos })
            else
              let (content, s2) := readLineContent (s1.text.length + 2) [] s1
              let s3 := if curChar s2 = some '\n' then advanceL s2 else s2
              multilineLoop fuel (lines ++ [String.mk content]) baseIndent s3
          | Option.none =>
            let (content, s2) := readLineContent (s1.text.length + 2) [] s1
            let s3 := if curChar s2 = some '\n' then advanceL s2 else s2
            multilineLoop fuel (lines ++ [String.mk content]) (some indent) s3

/-- Python `sep.join(xs)`. -/
def pyJoin (sep : String) : List String → String
  | [] => ""
  | [x] => x
  | x :: rest => x ++ sep ++ pyJoin sep rest

/-- Final assembly of `read_multiline_string`: the join controlled by the
`indicator` string compared against `"|"`, then the chomping adjustments. -/
def assembleMultiline (indicator : String) (stripFinal keepFinal : Bool)
    (lines : List String) : String :=
  let result :=
    if indicator = "|" then
      pyJoin "\n" lines
    else
      pyJoin " " ((lines.map pyStrip).filter (fun l => l ≠ ""))
  if stripFinal then
    pyRstripNewlines result
  else if keepFinal then
    if result ≠ "" ∧ ¬ result.endsWith "\n" then result ++ "\n" else result
  else
    result

/-- `Lexer.read_multiline_string(indicator)`.  Note the caller passes the
full indicator string (`"|"`, `"|-"`, `">"`, `">-"`) but the routine itself
advances only one character and re-reads the chomping suffix from the input;
the join rule compares the full `indicator` against `"|"`. -/
def read_multiline_string (indicator : String) (fuel : Nat) (s0 : LexState) :
    Except LexerError (String × LexState) :=
  let s := advanceL s0
  let (stripFinal, keepFinal, sA) :=
    if curChar s = some '-' then (true, false, advanceL s)
    else if curChar s = some '+' then (false, true, advanceL s)
    else (false, false, s)
  match skip_whitespace (sA.text.length + 2) sA with
  | .error e => .error e
  | .ok sB =>
    if curChar sB ≠ some '\n' then
      .error ⟨"Multiline string must start on new line", sB.line, sB.col⟩
    else
      match multilineLoop fuel [] Option.none (advanceL sB) with
      | .error e => .error e
      | .ok (lines, sC) =>
        .ok (assembleMultiline indicator stripFinal keepFinal lines, sC)

/-- Digit-collecting loop of `read_number`. -/
def readDigits : Nat → List Char → LexState → (List Char × LexState)
  | 0, acc, s => (acc, s)
  | fuel + 1, acc, s =>
    match curChar s with
    | some c =>
      if c.isDigit then readDigits fuel (acc ++ [c]) (advanceL s)
      else (acc, s)
    | Option.none => (acc, s)

/-- `Lexer.read_number`: the lexeme is collected verbatim. -/
def read_number (s : LexState) : Except LexerError (String × LexState) :=
  let fl := s.text.length + 2
  let (sign, s1) := if curChar s = some '-' then (['-'], advanceL s) else ([], s)
  match curChar s1 with
  | some c =>
    if c = '0' ∨ c.isDigit then
      let (intPart, s2) :=
        if c = '0' then (['0'], advanceL s1)
        else readDigits fl [] s1
      let (fracPart, s3) :=
        if curChar s2 = some '.' then
          let s2' := advanceL s2
          match curChar s2' with
          | some d =>
            if d.isDigit then
              let (ds, s'') := readDigits fl [] s2'
              (some ('.' :: ds), s'')
            else (Option.none, s2')
          | Option.none => (Option.none, s2')
        else (some [], s2)
      match fracPart with
      | Option.none => .error ⟨"Invalid number format", s3.line, s3.col⟩
      | some frac =>
        if (curChar s3).any (fun e => e.toLower = 'e') then
          let eChar := ((curChar s3).getD 'e')
          let s4 := advanceL s3
          let (expSign, s5) :=
            if curChar s4 = some '+' ∨ curChar s4 = some '-' then
              ([((curChar s4).getD '+')], advanceL s4)
            else ([], s4)
          match curChar s5 with
          | some d =>
            if d.isDigit then
              let (ds, s6) := readDigits fl [] s5
              .ok (String.mk (sign ++ intPart ++ frac ++ [eChar] ++ expSign ++ ds), s6)
            else .error ⟨"Invalid number format", s5.line, s5.col⟩
          | Option.none => .error ⟨"Invalid number format", s5.line, s5.col⟩
        else
          .ok (String.mk (sign ++ intPart ++ frac), s3)
    else .error ⟨"Invalid number format", s1.line, s1.col⟩
  | Option.none => .error ⟨"Invalid number format", s1.line, s1.col⟩

/-- `Lexer.read_comment`: skip `#`, take until newline, Python-`strip`. -/
def read_comment (s : LexState) : (String × LexState) :=
  let (content, s') := readLineContent (s.text.length + 2) [] (advanceL s)
  (pyStrip (String.mk content), s')

/-- `Lexer.read_identifier`: a run of alphanumerics/underscores. -/
def readIdentLoop : Nat → List Char → LexState → (List Char × LexState)
  | 0, acc, s => (acc, s)
  | fuel + 1, acc, s =>
    match curChar s with
    | some c =>
      if c.isAlphanum ∨ c = '_' then readIdentLoop fuel (acc ++ [c]) (advanceL s)
      else (acc, s)
    | Option.none => (acc, s)

def read_identifier (s : LexState) : (String × LexState) :=
  let (cs, s') := readIdentLoop (s.text.length + 2) [] s
  (String.mk cs, s')

/-- The single-character token table of `next_token`. -/
def singleCharToken (c : Char) : Option TokenType :=
  if c = ':' then some .COLON
  else if c = ',' then some .COMMA
  else if c = '[' then some .LEFT_BRACKET
  else if c = ']' then some .RIGHT_BRACKET
  else if c = '{' then some .LEFT_BRACE
  else if c = '}' then some .RIGHT_BRACE
  else if c = '-' then some .DASH
  else Option.none

/-- `Lexer.next_token`. -/
def next_token (s0 : LexState) : Except LexerError (Token × LexState) :=
  match (if s0.atLineStart then
           match count_indent (s0.text.length + 2) { s0 with atLineStart := false } with
           | .error e => .error e
           | .ok (indent, s1) =>
             if indent > 0 then
               .ok (some (Token.mk .INDENT (toString indent) s1.line (s1.col - indent)), s1)
             else .ok (Option.none, s1)
         else .ok (Option.none, s0) :
         Except LexerError (Option Token × LexState)) with
  | .error e => .error e
  | .ok (some t, s1) => .ok (t, s1)
  | .ok (Option.none, s1) =>
    match skip_whitespace (s1.text.length + 2) s1 with
    | .error e => .error e
    | .ok s =>
      match curChar s with
      | Option.none => .ok (⟨.EOF, "", s.line, s.col⟩, s)
      | some c =>
        let line := s.line
        let col := s.col
        if c = '\n' then
          .ok (⟨.NEWLINE, "\n", line, col⟩, advanceL s)
        else if c = '#' then
          let (v, s') := read_comment s
          .ok (⟨.COMMENT, v, line, col⟩, s')
        else if c = '"' ∨ c = '\'' then
          match read_string c (s.text.length + 2) s with
          | .error e => .error e
          | .ok (v, s') => .ok (⟨.STRING, v, line, col⟩, s')
        else if c = '|' then
          let ind := if peekChar s = some '-' then "|-" else "|"
          match read_multiline_string ind (s.text.length + 2) s with
          | .error e => .error e
          | .ok (v, s') => .ok (⟨.STRING, v, line, col⟩, s')
        else if c = '>' then
          let ind := if peekChar s = some '-' then ">-" else ">"
          match read_multiline_string ind (s.text.length + 2) s with
          | .error e => .error e
          | .ok (v, s') => .ok (⟨.STRING, v, line, col⟩, s')
        else if c.isDigit ∨ (c = '-' ∧ (peekChar s).any Char.isDigit) then
          match read_number s with
          | .error e => .error e
          | .ok (v, s') => .ok (⟨.NUMBER, v, line, col⟩, s')
        else if c.isAlpha then
          let (v, s') := read_identifier s
          if v = "true" then .ok (⟨.TRUE, v, line, col⟩, s')
          else if v = "false" then .ok (⟨.FALSE, v, line, col⟩, s')
          else if v = "null" then .ok (⟨.NULL, v, line, col⟩, s')
          else .error ⟨"Unknown identifier: " ++ v, line, col⟩
        else
          match singleCharToken c with
          | some tt => .ok (⟨tt, String.mk [c], line, col⟩, advanceL s)
          | Option.none =>
            .error ⟨"Unexpected character: " ++ String.mk [c], line, col⟩

/-- `Lexer.tokenize`: collect tokens until EOF.  A `LexerError` stops the
stream; the tokens produced before it are returned alongside the error,
matching how `Parser.__init__` consumes the generator. -/
def tokenizeLoop : Nat → List Token → LexState → (List Token × Option LexerError)
  | 0, acc, _ => (acc, some fuelLexErr)
  | fuel + 1, acc, s =>
    match next_token s with
    | .error e => (acc, some e)
    | .ok (t, s') =>
      if t.type = .EOF then (acc ++ [t], Option.none)
      else tokenizeLoop fuel (acc ++ [t]) s'

/-- BOM character U+FEFF. -/
def bomChar : Char := Char.ofNat 0xFEFF

/-- `Lexer.__init__` plus `tokenize`: the BOM check, then the token stream.
Returns the tokens produced before any error, and the error if one occurred;
the init-time BOM failure is the outer `.error`. -/
def tokenizeAll (cs : List Char) : Except LexerError (List Token × Option LexerError) :=
  if cs.head? = some bomChar then
    .error ⟨"BOM not allowed", 1, 1⟩
  else
    .ok (tokenizeLoop (cs.length * 2 + 8) [] ⟨cs, 0, 1, 1, true⟩)

/-! ## Parser (`parser.py`) -/

/-- An error escaping the public `parse` entry point: either the uncaught
`LexerError` from `Lexer.__init__` (the BOM check happens outside the
`try` in `Parser.__init__`) or a `ParseError`. -/
inductive JErr where
  | lexErr (e : LexerError)
  | parseErr (e : ParseError)
deriving DecidableEq, Repr

/-- A comment-position record as built in `Parser.__init__`
(`{'text': ..., 'line': ..., 'column': ...}`). -/
structure CommentPos where
  text : String
  line : Nat
  column : Nat
deriving DecidableEq, Repr

/-- The attributes of `Parser` fixed at `__init__` time: the filtered token
list, the collected comments and comment positions, and the token count. -/
structure ParserS where
  tokens : List Token
  comments : List String
  commentPositions : List CommentPos
  tokenCount : Nat
deriving DecidableEq, Repr

/-- The token-processing body of the `for token in self.lexer.tokenize()`
loop in `Parser.__init__`: count every token, route comments to the comment
buffers according to the options, keep the rest. -/
def processTokens (o : ParseOptions) : List Token → ParserS → ParserS
  | [], ps => ps
  | t :: rest, ps =>
    let ps := { ps with tokenCount := ps.tokenCount + 1 }
    let ps :=
      if t.type = .COMMENT then
        if o.preserve_comments then
          let ps := { ps with comments := ps.comments ++ [t.value] }
          if o.include_comment_positions then
            { ps with commentPositions := ps.commentPositions ++ [⟨t.value, t.line, t.column⟩] }
          else ps
        else ps
      else { ps with tokens := ps.tokens ++ [t] }
    processTokens o rest ps

/-- Python truthiness of a string: non-empty. -/
def pyTruthyStr (s : String) : Bool := s ≠ ""

/-- The line-ending replacement in `Parser.__init__`:
`text.replace('\r\n', '\n').replace('\r', '\n')` — every CRLF collapses to
LF and every remaining CR becomes LF. -/
def normChars : List Char → List Char
  | [] => []
  | '\r' :: '\n' :: rest => '\n' :: normChars rest
  | '\r' :: rest => '\n' :: normChars rest
  | c :: rest => c :: normChars rest

def normalizeNewlines (s : String) : String := String.mk (normChars s.data)

/-- The preprocessing step of `Parser.__init__`: the replacement runs under
`if self.options.normalize_line_endings:` — a Python truthiness test on the
option string. -/
def preprocess (o : ParseOptions) (text : String) : String :=
  if pyTruthyStr o.normalize_line_endings then normalizeNewlines text else text

/-- Python `"Tab character" in message`. -/
def listStartsWith : List Char → List Char → Bool
  | _, [] => true
  | [], _ :: _ => false
  | c :: cs, d :: ds => c = d && listStartsWith cs ds

def containsSub : List Char → List Char → Bool
  | [], pat => listStartsWith [] pat
  | l@(_ :: cs), pat => listStartsWith l pat || containsSub cs pat

def mentionsTab (m : String) : Bool := containsSub m.data "Tab character".data

/-- The lexing part of `Parser.__init__` applied to already-preprocessed
characters: BOM check, tokenization, comment filtering, and the
`except LexerError` policy (tab errors and strict mode re-raise as
`ParseError`; otherwise the error is swallowed and the token prefix kept). -/
def initCore (o : ParseOptions) (cs : List Char) : Except JErr ParserS :=
  match tokenizeAll cs with
  | .error e => .error (.lexErr e)
  | .ok (toks, errOpt) =>
    let ps := processTokens o toks ⟨[], [], [], 0⟩
    match errOpt with
    | Option.none => .ok ps
    | some e =>
      if mentionsTab e.msg then
        .error (.parseErr ⟨"Lexer error: " ++ e.msg, Option.none, Option.none⟩)
      else if o.strict_mode then
        .error (.parseErr ⟨"Lexer error: " ++ e.msg, Option.none, Option.none⟩)
      else
        .ok ps

/-- `Parser.__init__(text, options)`. -/
def initParser (text : String) (o : ParseOptions) : Except JErr ParserS :=
  initCore o (preprocess o text).data

/-- Mutable parse-time state of `Parser`: token cursor and depth counter. -/
structure PSt where
  pos : Nat
  depth : Nat
deriving DecidableEq, Repr

/-- `Parser.current_token`. -/
def curTok (tks : List Token) (st : PSt) : Option Token := tks.get? st.pos

/-- `Parser.peek_token` (offset 1). -/
def peekTok (tks : List Token) (st : PSt) : Option Token := tks.get? (st.pos + 1)

/-- `Parser.advance` (cursor step only; the token itself is read via
`curTok` at the call sites that need it). -/
def advP (st : PSt) : PSt := { st with pos := st.pos + 1 }

/-- Fuel-exhaustion marker for the parser; never the Python behaviour. -/
def fuelParseErr : ParseError := ⟨"INTERNAL: out of fuel", Option.none, Option.none⟩

/-- `Parser.check_depth`. -/
def check_depth (o : ParseOptions) (st : PSt) : Except ParseError Unit :=
  match o.max_depth with
  | some m =>
    if st.depth > m then
      .error ⟨"Maximum nesting depth exceeded: " ++ toString m, Option.none, Option.none⟩
    else .ok ()
  | Option.none => .ok ()

/-- `Parser.skip_newlines`: advance over NEWLINE and INDENT tokens. -/
def skipNewlinesGo (tks : List Token) : Nat → PSt → PSt
  | 0, st => st
  | fuel + 1, st =>
    match curTok tks st with
    | some t =>
      if t.type = .NEWLINE ∨ t.type = .INDENT then skipNewlinesGo tks fuel (advP st)
      else st
    | Option.none => st

def skip_newlines (tks : List Token) (st : PSt) : PSt :=
  skipNewlinesGo tks (tks.length + 1) st

/-- `Parser.expect(token_type)`. -/
def expectTok (tks : List Token) (st : PSt) (tt : TokenType) :
    Except ParseError PSt :=
  match curTok tks st with
  | some t =>
    if t.type = tt then .ok (advP st)
    else .error ⟨"Expected " ++ tt.pyValue ++ ", got " ++ t.type.pyValue,
                 some t.line, some t.column⟩
  | Option.none =>
    .error ⟨"Expected " ++ tt.pyValue ++ ", got EOF", Option.none, Option.none⟩

/-- A single apostrophe, for reproducing Python error strings. -/
def sq : String := String.mk [Char.ofNat 39]

/-- Python `int(...)` on a (signed) digit string; `none` models `ValueError`. -/
def digitsVal : List Char → Option Nat
  | [] => Option.none
  | cs =>
    if cs.all Char.isDigit then
      some (cs.foldl (fun acc c => acc * 10 + (c.toNat - '0'.toNat)) 0)
    else Option.none

def pyInt? (s : String) : Option Int :=
  match s.data with
  | '-' :: rest => (digitsVal rest).map (fun n => -(n : Int))
  | '+' :: rest => (digitsVal rest).map (fun n => (n : Int))
  | l => (digitsVal l).map (fun n => (n : Int))

/-- The integer/float dispatch of `Parser.parse_value` on a NUMBER token:
`'.' not in v and 'e' not in v.lower()`. -/
def numberIsInt (v : String) : Bool :=
  ¬ v.data.contains '.' ∧ ¬ (v.data.map Char.toLower).contains 'e'

mutual

/-- `Parser.parse_value`. -/
def parse_value (o : ParseOptions) (tks : List Token) :
    Nat → PSt → Except ParseError (JYAMLData × PSt)
  | 0, _ => .error fuelParseErr
  | fuel + 1, st0 =>
    let st := skip_newlines tks st0
    match curTok tks st with
    | Option.none => .error ⟨"Unexpected end of input", Option.none, Option.none⟩
    | some t =>
      match t.type with
      | .NULL => .ok (.null, advP st)
      | .TRUE => .ok (.bool true, advP st)
      | .FALSE => .ok (.bool false, advP st)
      | .NUMBER =>
        if numberIsInt t.value then
          match pyInt? t.value with
          | some i => .ok (.num (.int i), advP st)
          | Option.none =>
            .error ⟨"Invalid number: " ++ t.value, some t.line, some t.column⟩
        else
          .ok (.num (.float t.value), advP st)
      | .STRING =>
        if (peekTok tks st).any (fun t2 => t2.type = .COLON) then
          parse_block_object o tks fuel st
        else
          .ok (.str t.value, advP st)
      | .LEFT_BRACKET => parse_flow_array o tks fuel st
      | .LEFT_BRACE => parse_flow_object o tks fuel st
      | .DASH => parse_block_array o tks fuel st
      | .PIPE | .PIPE_STRIP | .GREATER | .GREATER_STRIP =>
        .error ⟨"Unexpected multiline indicator: " ++ t.value, some t.line, some t.column⟩
      | _ => .error ⟨"Unexpected token: " ++ t.value, some t.line, some t.column⟩

/-- `Parser.parse_flow_array` up to the first item (empty array handled
here, the item loop in `flowArrayLoop`). -/
def parse_flow_array (o : ParseOptions) (tks : List Token) :
    Nat → PSt → Except ParseError (JYAMLData × PSt)
  | 0, _ => .error fuelParseErr
  | fuel + 1, st0 =>
    let st1 : PSt := { st0 with depth := st0.depth + 1 }
    match check_depth o st1 with
    | .error e => .error e
    | .ok _ =>
      match expectTok tks st1 .LEFT_BRACKET with
      | .error e => .error e
      | .ok st2 =>
        let st3 := skip_newlines tks st2
        if (curTok tks st3).any (fun t => t.type = .RIGHT_BRACKET) then
          .ok (.arr [], { advP st3 with depth := st1.depth - 1 })
        else
          flowArrayLoop o tks fuel [] st3

/-- The `while True` item loop of `parse_flow_array`. -/
def flowArrayLoop (o : ParseOptions) (tks : List Token) :
    Nat → List JYAMLData → PSt → Except ParseError (JYAMLData × PSt)
  | 0, _, _ => .error fuelParseErr
  | fuel + 1, items, st =>
    match parse_value o tks fuel st with
    | .error e => .error e
    | .ok (v, stV) =>
      let items := items ++ [v]
      let st1 := skip_newlines tks stV
      match curTok tks st1 with
      | Option.none => .error ⟨"Unexpected end of input in array", Option.none, Option.none⟩
      | some t =>
        if t.type = .RIGHT_BRACKET then
          .ok (.arr items, { advP st1 with depth := st1.depth - 1 })
        else if t.type = .COMMA then
          let st2 := skip_newlines tks (advP st1)
          if (curTok tks st2).any (fun t2 => t2.type = .RIGHT_BRACKET) then
            .ok (.arr items, { advP st2 with depth := st2.depth - 1 })
          else
            flowArrayLoop o tks fuel items st2
        else
          .error ⟨"Expected " ++ sq ++ "," ++ sq ++ " or " ++ sq ++ "]" ++ sq ++
                  " in array, got " ++ t.value, some t.line, some t.column⟩

/-- `Parser.parse_flow_object` up to the first pair. -/
def parse_flow_object (o : ParseOptions) (tks : List Token) :
    Nat → PSt → Except ParseError (JYAMLData × PSt)
  | 0, _ => .error fuelParseErr
  | fuel + 1, st0 =>
    let st1 : PSt := { st0 with depth := st0.depth + 1 }
    match check_depth o st1 with
    | .error e => .error e
    | .ok _ =>
      match expectTok tks st1 .LEFT_BRACE with
      | .error e => .error e
      | .ok st2 =>
        let st3 := skip_newlines tks st2
        if (curTok tks st3).any (fun t => t.type = .RIGHT_BRACE) then
          .ok (.obj [], { advP st3 with depth := st1.depth - 1 })
        else
          flowObjectLoop o tks fuel [] st3

/-- The `while True` pair loop of `parse_flow_object`, including the
comma-less continuation branch (`STRING` followed by `COLON`). -/
def flowObjectLoop (o : ParseOptions) (tks : List Token) :
    Nat → List (String × JYAMLData) → PSt → Except ParseError (JYAMLData × PSt)
  | 0, _, _ => .error fuelParseErr
  | fuel + 1, items, st =>
    match expectTok tks st .STRING with
    | .error e => .error e
    | .ok stK =>
      let key := ((curTok tks st).map Token.value).getD ""
      let st1 := skip_newlines tks stK
      match expectTok tks st1 .COLON with
      | .error e => .error e
      | .ok st2 =>
        let st3 := skip_newlines tks st2
        match parse_value o tks fuel st3 with
        | .error e => .error e
        | .ok (v, stV) =>
          let items := dictSet items key v
          let st4 := skip_newlines tks stV
          match curTok tks st4 with
          | Option.none =>
            .error ⟨"Unexpected end of input in object", Option.none, Option.none⟩
          | some t =>
            if t.type = .RIGHT_BRACE then
              .ok (.obj items, { advP st4 with depth := st4.depth - 1 })
            else if t.type = .COMMA then
              let st5 := skip_newlines tks (advP st4)
              if (curTok tks st5).any (fun t2 => t2.type = .RIGHT_BRACE) then
                .ok (.obj items, { advP st5 with depth := st5.depth - 1 })
              else
                flowObjectLoop o tks fuel items st5
            else if t.type = .STRING ∧
                    (peekTok tks st4).any (fun t2 => t2.type = .COLON) then
              flowObjectLoop o tks fuel items st4
            else
              .error ⟨"Expected " ++ sq ++ "," ++ sq ++ " or " ++ sq ++ "\x7d" ++ sq ++
                      " in object, got " ++ t.value, some t.line, some t.column⟩

/-- `Parser.parse_block_array` (the dead `base_indent` bookkeeping of the
Python body has no observable effect and is omitted). -/
def parse_block_array (o : ParseOptions) (tks : List Token) :
    Nat → PSt → Except ParseError (JYAMLData × PSt)
  | 0, _ => .error fuelParseErr
  | fuel + 1, st0 =>
    let st1 : PSt := { st0 with depth := st0.depth + 1 }
    match check_depth o st1 with
    | .error e => .error e
    | .ok _ => blockArrayLoop o tks fuel [] st1

/-- The DASH-driven loop of `parse_block_array`. -/
def blockArrayLoop (o : ParseOptions) (tks : List Token) :
    Nat → List JYAMLData → PSt → Except ParseError (JYAMLData × PSt)
  | 0, _, _ => .error fuelParseErr
  | fuel + 1, items, st =>
    if (curTok tks st).any (fun t => t.type = .DASH) then
      let st1 := skip_newlines tks (advP st)
      match parse_value o tks fuel st1 with
      | .error e => .error e
      | .ok (v, stV) =>
        let st2 := skip_newlines tks stV
        blockArrayLoop o tks fuel (items ++ [v]) st2
    else
      .ok (.arr items, { st with depth := st.depth - 1 })

/-- `Parser.parse_block_object` (note `current_char_is_whitespace` always
returns `False` in the source, so its skip loop is a no-op). -/
def parse_block_object (o : ParseOptions) (tks : List Token) :
    Nat → PSt → Except ParseError (JYAMLData × PSt)
  | 0, _ => .error fuelParseErr
  | fuel + 1, st0 =>
    let st1 : PSt := { st0 with depth := st0.depth + 1 }
    match check_depth o st1 with
    | .error e => .error e
    | .ok _ => blockObjectLoop o tks fuel [] st1

/-- The STRING/COLON-driven pair loop of `parse_block_object`. -/
def blockObjectLoop (o : ParseOptions) (tks : List Token) :
    Nat → List (String × JYAMLData) → PSt → Except ParseError (JYAMLData × PSt)
  | 0, _, _ => .error fuelParseErr
  | fuel + 1, items, st =>
    if (curTok tks st).any (fun t => t.type = .STRING) ∧
       (peekTok tks st).any (fun t => t.type = .COLON) then
      let key := ((curTok tks st).map Token.value).getD ""
      let st1 := advP st
      match expectTok tks st1 .COLON with
      | .error e => .error e
      | .ok st2 =>
        match parse_value o tks fuel st2 with
        | .error e => .error e
        | .ok (v, stV) =>
          let st3 := skip_newlines tks stV
          blockObjectLoop o tks fuel (dictSet items key v) st3
    else
      .ok (.obj items, { st with depth := st.depth - 1 })

end

/-- Fuel that is always sufficient for a token list of this length (each
recursive call either consumes a token or descends into a construct opened
by one). -/
def parseFuel (tks : List Token) : Nat := tks.length * 4 + 16

/-- `Parser.parse`: the document rule. -/
def runParse (o : ParseOptions) (ps : ParserS) : Except ParseError ParsedDocument :=
  let tks := ps.tokens
  let st := skip_newlines tks ⟨0, 0⟩
  match curTok tks st with
  | Option.none => .ok ⟨.null, ps.comments, Option.none⟩
  | some t =>
    if t.type = .EOF then .ok ⟨.null, ps.comments, Option.none⟩
    else
      match parse_value o tks (parseFuel tks) st with
      | .error e => .error e
      | .ok (root, st1) =>
        let st2 := skip_newlines tks st1
        match curTok tks st2 with
        | some t2 =>
          if t2.type ≠ .EOF then
            .error ⟨"Unexpected token after document: " ++ t2.value,
                    some t2.line, some t2.column⟩
          else .ok ⟨root, ps.comments, Option.none⟩
        | Option.none => .ok ⟨root, ps.comments, Option.none⟩

/-- The module-level `parse(text, options)` entry point of `parser.py`. -/
def parse (text : String) (o : ParseOptions) : Except JErr ParsedDocument :=
  match initParser text o with
  | .error e => .error e
  | .ok ps =>
    match runParse o ps with
    | .error e => .error (.parseErr e)
    | .ok doc => .ok doc

/-! ## Loader (`loader.py`) -/

/-- Python `str(...)` of the decoded number held by a `JYAMLNumber`.  For the
integer case this is decimal notation with a leading `-` for negatives,
which coincides with `toString : Int → String`.  The float case depends on
Python float formatting, which is not modelled; the placeholder below is
never relied on by any theorem. -/
def pyStrNum : NumVal → String
  | .int i => toString i
  | .float lex => "UNMODELLED-FLOAT-STR " ++ lex

/-- `Decimal(str(value.value))` for a float value — argument string again
unmodelled. -/
def pyDecimalOfFloat (lex : String) : String := "UNMODELLED-FLOAT-STR " ++ lex

/-- Whether a `JYAMLNumber` holds a Python `float`
(`isinstance(value.value, float)`). -/
def NumVal.isFloat : NumVal → Bool
  | .int _ => false
  | .float _ => true

mutual

/-- `loader.convert_to_python(value, options)`. -/
def convert_to_python (o : LoadOptions) : JYAMLData → PyValue
  | .null => if o.parse_null then .none else .str "null"
  | .bool b =>
    if o.parse_booleans ∧ o.as_native_types then .bool b
    else .str (if b then "true" else "false")
  | .num v =>
    if o.parse_numbers ∧ o.as_native_types then
      match o.number_hook with
      | some h => h v
      | Option.none =>
        if o.use_decimal ∧ v.isFloat then
          match v with
          | .float lex => .decimal (pyDecimalOfFloat lex)
          | .int i => .int i
        else
          match v with
          | .int i => .int i
          | .float lex => .float lex
    else .str (pyStrNum v)
  | .str s => .str s
  | .arr xs => .list (convertList o xs)
  | .obj m =>
    let pairs := convertPairs o m
    match o.object_hook with
    | some h => h pairs
    | Option.none =>
      if o.use_ordered_dict then .odict pairs else .pydict pairs

def convertList (o : LoadOptions) : List JYAMLData → List PyValue
  | [] => []
  | x :: xs => convert_to_python o x :: convertList o xs

def convertPairs (o : LoadOptions) :
    List (String × JYAMLData) → List (String × PyValue)
  | [] => []
  | (k, v) :: rest => (k, convert_to_python o v) :: convertPairs o rest

end

/-- `loader.loads(text, options)`: parse with the embedded `parse_options`
(or the defaults) and convert. -/
def loads (text : String) (o : LoadOptions) : Except JErr PyValue :=
  let parseOpts := o.parse_options.getD {}
  match parse text parseOpts with
  | .error e => .error e
  | .ok doc => .ok (convert_to_python o doc.data)

/-! ## Derived notions used by the claims -/

mutual

/-- Nesting depth of a value: scalars are 0, each array/object level adds 1.
This is exactly the quantity guarded by `enter_scope`/`check_depth`. -/
def valueDepth : JYAMLData → Nat
  | .null => 0
  | .bool _ => 0
  | .num _ => 0
  | .str _ => 0
  | .arr xs => listDepth xs + 1
  | .obj m => pairsDepth m + 1

def listDepth : List JYAMLData → Nat
  | [] => 0
  | x :: xs => max (valueDepth x) (listDepth xs)

def pairsDepth : List (String × JYAMLData) → Nat
  | [] => 0
  | kv :: rest => max (valueDepth kv.2) (pairsDepth rest)

end

/-! Concrete inputs and option bundles used by the claim theorems.  Literal
braces in string literals are written with their `\x7b`/`\x7d` escapes. -/

/-- `{"a": 1, "a": 2}` — a flow object with a duplicate key. -/
def dupKeyInput : String := "\x7b\"a\": 1, \"a\": 2\x7d"

/-- `{"m": |` / `  a` / `  b` / `}` — the literal-multiline clip example. -/
def clipInput : String := "\x7b\"m\": |\n  a\n  b\n\x7d"

/-- `{"a":{"b":{"c":{"d":1}}}}` — nesting depth 4. -/
def depthInput : String :=
  "\x7b\"a\":\x7b\"b\":\x7b\"c\":\x7b\"d\":1\x7d\x7d\x7d\x7d"

/-- Options with `max_depth=3`. -/
def depth3Opts : ParseOptions := { max_depth := some 3 }

/-- Options with `normalize_line_endings="none"`. -/
def noNormOpts : ParseOptions := { normalize_line_endings := "none" }

/-- Options with `include_comment_positions=True` (and the default
`preserve_comments=True`). -/
def posOpts : ParseOptions := { include_comment_positions := true }

/-- `# hi` on its own line, then `null`. -/
def commentInput : String := "# hi\nnull"

/-- Non-strict options (lexer errors are swallowed). -/
def nonStrictOpts : ParseOptions := { strict_mode := false }

/-- `["a": 1]` — a flow array whose element starts with STRING COLON. -/
def arrayKeyInput : String := "[\"a\": 1]"

/-- Load options with `parse_numbers=False`. -/
def noNumOpts : LoadOptions := { parse_numbers := false }

/-- A `LoadOptions` record with `as_native_types=False` and
`use_ordered_dict=True` — not forbidden by any rule listed in claim C8. -/
def c8LoadCombo : LoadOptions := { as_native_types := false, use_ordered_dict := true }

/-! Invariant propositions for the depth-guard proof: on success each parse
function restores the depth counter and only builds values whose nesting,
offset by the depth at which parsing started, stays within `max_depth`. -/

def PVprop (o : ParseOptions) (tks : List Token) (m n : Nat) : Prop :=
  ∀ st v st', parse_value o tks n st = .ok (v, st') →
    st'.depth = st.depth ∧ (st.depth + valueDepth v ≤ m ∨ valueDepth v = 0)

def PFAprop (o : ParseOptions) (tks : List Token) (m n : Nat) : Prop :=
  ∀ st v st', parse_flow_array o tks n st = .ok (v, st') →
    st'.depth = st.depth ∧ st.depth + valueDepth v ≤ m

def QFAprop (o : ParseOptions) (tks : List Token) (m n : Nat) : Prop :=
  ∀ items st v st', flowArrayLoop o tks n items st = .ok (v, st') →
    st.depth ≤ m → st.depth + listDepth items ≤ m →
    st'.depth = st.depth - 1 ∧
    ∃ items', v = .arr items' ∧ st.depth + listDepth items' ≤ m

def PFOprop (o : ParseOptions) (tks : List Token) (m n : Nat) : Prop :=
  ∀ st v st', parse_flow_object o tks n st = .ok (v, st') →
    st'.depth = st.depth ∧ st.depth + valueDepth v ≤ m

def QFOprop (o : ParseOptions) (tks : List Token) (m n : Nat) : Prop :=
  ∀ items st v st', flowObjectLoop o tks n items st = .ok (v, st') →
    st.depth ≤ m → st.depth + pairsDepth items ≤ m →
    st'.depth = st.depth - 1 ∧
    ∃ items', v = .obj items' ∧ st.depth + pairsDepth items' ≤ m

def PBAprop (o : ParseOptions) (tks : List Token) (m n : Nat) : Prop :=
  ∀ st v st', parse_block_array o tks n st = .ok (v, st') →
    st'.depth = st.depth ∧ st.depth + valueDepth v ≤ m

def QBAprop (o : ParseOptions) (tks : List Token) (m n : Nat) : Prop :=
  ∀ items st v st', blockArrayLoop o tks n items st = .ok (v, st') →
    st.depth ≤ m → st.depth + listDepth items ≤ m →
    st'.depth = st.depth - 1 ∧
    ∃ items', v = .arr items' ∧ st.depth + listDepth items' ≤ m

def PBOprop (o : ParseOptions) (tks : List Token) (m n : Nat) : Prop :=
  ∀ st v st', parse_block_object o tks n st = .ok (v, st') →
    st'.depth = st.depth ∧ st.depth + valueDepth v ≤ m

def QBOprop (o : ParseOptions) (tks : List Token) (m n : Nat) : Prop :=
  ∀ items st v st', blockObjectLoop o tks n items st = .ok (v, st') →
    st.depth ≤ m → st.depth + pairsDepth items ≤ m →
    st'.depth = st.depth - 1 ∧
    ∃ items', v = .obj items' ∧ st.depth + pairsDepth items' ≤ m

/-! ## Claim theorems -/

/-- C1 (code bug): in strict mode (the default options), the flow object
`{"a": 1, "a": 2}` parses successfully and keeps the last occurrence —
no `DuplicateKey` error is raised anywhere in `parse_flow_object` or
`parse_block_object`; duplicate-key detection is absent from the code (its
own test suite lists `duplicate-keys.jyml` as "Not yet implemented"). -/
theorem c1_strict_mode_keeps_last_duplicate :
    parse dupKeyInput {} = .ok ⟨.obj [("a", .num (.int 2))], [], Option.none⟩ := by
  rfl

/-- C2 counterexample: the claim predicts `m == "a\nb\n"` (clip = one
trailing newline), but the code performs no chomping adjustment when no
indicator is present, so `{"m": |` / `  a` / `  b` / `}` yields
`m == "a\nb"`, which differs from the claimed value. -/
theorem c2_clip_example_lacks_trailing_newline :
    parse clipInput {} = .ok ⟨.obj [("m", .str "a\nb")], [], Option.none⟩ ∧
    ("a\nb" : String) ≠ "a\nb\n" := by
  constructor
  · rfl
  · decide

/-- C3 counterexample: with `max_depth=3`, `{"a":{"b":{"c":{"d":1}}}}` does
fail with the depth error, but `check_depth` raises `ParseError(message)`
with no token, so the error carries `line=None, column=None` — not the
position of the opening brace of `"d"`'s object as the claim states. -/
theorem c3_depth_error_carries_no_position :
    parse depthInput depth3Opts =
      .error (.parseErr ⟨"Maximum nesting depth exceeded: 3", Option.none, Option.none⟩) := by
  rfl

/-- C4 counterexample: with `normalize_line_endings="none"`, an input with a
bare `\r` outside any quoted string parses successfully instead of failing
with a lexical error: `Parser.__init__` tests the Python truthiness of the
option string, and `"none"` is truthy, so CR is normalized away. -/
theorem c4_bare_cr_parses_under_none :
    parse "null\r" noNormOpts = .ok ⟨.null, [], Option.none⟩ := by
  rfl

/-- C4 amended: line-ending normalization runs for every legal value of
`normalize_line_endings` (all three literals are truthy non-empty strings),
so `\r\n` and bare `\r` are always rewritten to `\n` before lexing and a
bare `\r` never raises; in particular `"null\r"` under `"none"` parses to
`Null`. -/
theorem c4_normalization_always_on :
    (∀ (o : ParseOptions) (text : String),
      o.normalize_line_endings = "none" ∨ o.normalize_line_endings = "lf" ∨
        o.normalize_line_endings = "crlf" →
      preprocess o text = normalizeNewlines text) ∧
    parse "null\r" noNormOpts = .ok ⟨.null, [], Option.none⟩ := by
  constructor
  · intro o text h
    unfold preprocess
    rcases h with h | h | h <;> rw [h] <;> rfl
  · rfl

/-- C4 witness: the normalization statement applied at the concrete option
value `"none"` and the text `"a\rb"`. -/
theorem c4_witness :
    preprocess noNormOpts "a\rb" = normalizeNewlines "a\rb" :=
  c4_normalization_always_on.1 noNormOpts "a\rb" (Or.inl rfl)

/-- C6 counterexample: loading `-0` with `parse_numbers=False` yields the
string `"0"` — `str()` of the already-decoded `int("-0") = 0` — not the
source lexeme `"-0"` that the claim promises. -/
theorem c6_number_lexeme_not_preserved :
    loads "-0" noNumOpts = .ok (.str "0") ∧ ("0" : String) ≠ "-0" := by
  constructor
  · rfl
  · decide

/-- C6 amended: with `parse_numbers=False` the converter emits `str()` of
the number value the parser already decoded, not the source lexeme; for an
integer-decoded number this is the canonical decimal rendering of the
decoded integer (so `-0` loads as `"0"`). -/
theorem c6_numbers_stringify_decoded_value :
    (∀ (o : LoadOptions) (i : Int), o.parse_numbers = false →
      convert_to_python o (.num (.int i)) = .str (toString i)) ∧
    loads "-0" noNumOpts = .ok (.str "0") := by
  constructor
  · intro o i h
    simp [convert_to_python, h, pyStrNum]
  · rfl

/-- C6 witness: the amended statement applied at `parse_numbers=False` and
the decoded integer `0`. -/
theorem c6_witness :
    convert_to_python noNumOpts (.num (.int 0)) = .str (toString (0 : Int)) :=
  c6_numbers_stringify_decoded_value.1 noNumOpts 0 rfl

/-- C7 counterexample: with `preserve_comments=True` and
`include_comment_positions=True`, the parser collects `(text, line, column)`
records, but the `ParsedDocument` returned by `parse` consists only of
`data`, `comments` and `source_info=None` — the `ParsedDocument` model has
no `comment_positions` field and the collected records are never returned. -/
theorem c7_document_lacks_comment_positions :
    parse commentInput posOpts = .ok ⟨.null, ["hi"], Option.none⟩ ∧
    (initParser commentInput posOpts).toOption.map ParserS.commentPositions =
      some [⟨"hi", 1, 1⟩] := by
  constructor
  · rfl
  · rfl

/-- C7 amended: the `(text, line, column)` records are retained on the
`Parser` object (its `comment_positions` attribute), in source order, only
when `include_comment_positions` is set (the list stays empty otherwise) —
but the `ParsedDocument` returned by `parse` carries only `data`,
`comments` and `source_info=None`. -/
theorem c7_positions_in_parser_only :
    (∀ (o : ParseOptions) (ts : List Token) (ps : ParserS),
      o.include_comment_positions = false →
      (processTokens o ts ps).commentPositions = ps.commentPositions) ∧
    (initParser commentInput posOpts).toOption.map ParserS.commentPositions =
      some [⟨"hi", 1, 1⟩] ∧
    parse commentInput posOpts = .ok ⟨.null, ["hi"], Option.none⟩ := by
  refine ⟨?_, rfl, rfl⟩
  intro o ts
  induction ts with
  | nil => intro ps h; rfl
  | cons t rest ih =>
    intro ps h
    simp only [processTokens]
    rw [ih _ h]
    split
    · split
      · simp [h]
      · rfl
    · rfl

/-- C7 witness: the positions-stay-empty statement applied to the default
options (whose `include_comment_positions` is `False`) and an empty token
list. -/
theorem c7_witness :
    (processTokens ({} : ParseOptions) [] ⟨[], [], [], 0⟩).commentPositions =
      (⟨[], [], [], 0⟩ : ParserS).commentPositions :=
  c7_positions_in_parser_only.1 {} [] ⟨[], [], [], 0⟩ rfl

/-- C9: in non-strict mode, a lexer error whose message does not contain
`"Tab character"` is swallowed in `Parser.__init__`: the tokens produced
before the error are kept and parsing proceeds on that prefix.  For the
input `foo` (whose only token attempt raises `Unknown identifier: foo`),
the kept prefix is empty and `parse` returns a document with root `Null`. -/
theorem c9_nonstrict_swallows_lexer_error :
    (∀ (o : ParseOptions) (cs : List Char) (toks : List Token) (e : LexerError),
      o.strict_mode = false →
      tokenizeAll cs = .ok (toks, some e) →
      mentionsTab e.msg = false →
      initCore o cs = .ok (processTokens o toks ⟨[], [], [], 0⟩)) ∧
    parse "foo" nonStrictOpts = .ok ⟨.null, [], Option.none⟩ := by
  constructor
  · intro o cs toks e hs htok hm
    unfold initCore
    rw [htok]
    simp [hm, hs]
  · rfl

/-- C9 witness: the swallowing statement applied to the concrete input
`foo`, whose tokenization yields no tokens and the non-tab error
`Unknown identifier: foo`. -/
theorem c9_witness :
    initCore nonStrictOpts "foo".data =
      .ok (processTokens nonStrictOpts [] ⟨[], [], [], 0⟩) :=
  c9_nonstrict_swallows_lexer_error.1 nonStrictOpts "foo".data []
    ⟨"Unknown identifier: foo", 1, 1⟩ rfl rfl rfl

/-- C10: a STRING token whose immediate successor is COLON is parsed as a
block object wherever `parse_value` runs — `parse_value` dispatches on the
peeked COLON — and inside a flow array this makes `["a": 1]` parse to an
array holding the single object `{"a": 1}`. -/
theorem c10_string_colon_dispatches_block_object :
    (∀ (o : ParseOptions) (tks : List Token) (fuel : Nat) (st : PSt) (t : Token),
      curTok tks (skip_newlines tks st) = some t →
      t.type = .STRING →
      (peekTok tks (skip_newlines tks st)).any (fun t2 => t2.type = .COLON) = true →
      parse_value o tks (fuel + 1) st =
        parse_block_object o tks fuel (skip_newlines tks st)) ∧
    parse arrayKeyInput {} =
      .ok ⟨.arr [.obj [("a", .num (.int 1))]], [], Option.none⟩ := by
  constructor
  · intro o tks fuel st t hcur hty hpeek
    simp only [parse_value, hcur, hty, hpeek]
    simp
  · rfl

/-- C10 witness: the dispatch statement applied to the concrete two-token
stream `STRING "a"`, `COLON`. -/
theorem c10_witness :
    parse_value ({} : ParseOptions)
        [⟨.STRING, "a", 1, 2⟩, ⟨.COLON, ":", 1, 5⟩] 6 ⟨0, 0⟩ =
      parse_block_object ({} : ParseOptions)
        [⟨.STRING, "a", 1, 2⟩, ⟨.COLON, ":", 1, 5⟩] 5
        (skip_newlines [⟨.STRING, "a", 1, 2⟩, ⟨.COLON, ":", 1, 5⟩] ⟨0, 0⟩) :=
  c10_string_colon_dispatches_block_object.1 {}
    [⟨.STRING, "a", 1, 2⟩, ⟨.COLON, ":", 1, 5⟩] 5 ⟨0, 0⟩
    ⟨.STRING, "a", 1, 2⟩ rfl rfl rfl

/-- Helper: the last character of a Python `"\n".join(lines)` is the last
character of the last line, provided that line is non-empty — i.e. the join
appends nothing after the last line. -/
theorem pyJoin_newline_last (ls : List String) (l : String)
    (h1 : ls.getLast? = some l) (h2 : l.data ≠ []) :
    (pyJoin "\n" ls).data.getLast? = l.data.getLast? := by
  induction ls with
  | nil => simp at h1
  | cons x rest ih =>
    cases rest with
    | nil =>
      have hx : x = l := by simpa using h1
      subst hx
      rfl
    | cons y rest2 =>
      have h1' : (y :: rest2).getLast? = some l := by simpa using h1
      have ihh := ih h1'
      have hjoin : pyJoin "\n" (x :: y :: rest2) =
          x ++ "\n" ++ pyJoin "\n" (y :: rest2) := rfl
      rw [hjoin]
      obtain ⟨c, hc⟩ : ∃ c, (pyJoin "\n" (y :: rest2)).data.getLast? = some c := by
        rw [ihh]
        cases hcl : l.data.getLast? with
        | none => exact absurd (List.getLast?_eq_none_iff.mp hcl) h2
        | some c => exact ⟨c, rfl⟩
      rw [← ihh, String.data_append, List.getLast?_append, hc]
      rfl

/-- C2 amended: with no chomping indicator the literal (`|`) scalar is the
plain `"\n".join` of the collected lines — nothing is appended, so when the
last collected line is non-empty the emitted value ends with that line's
last character (not with a newline); in particular the example yields
`m == "a\nb"`. -/
theorem c2_clip_appends_no_newline :
    (∀ (ls : List String) (l : String), ls.getLast? = some l → l.data ≠ [] →
      (assembleMultiline "|" false false ls).data.getLast? = l.data.getLast?) ∧
    parse clipInput {} = .ok ⟨.obj [("m", .str "a\nb")], [], Option.none⟩ := by
  constructor
  · intro ls l h1 h2
    have hassemble : assembleMultiline "|" false false ls = pyJoin "\n" ls := rfl
    rw [hassemble]
    exact pyJoin_newline_last ls l h1 h2
  · rfl

/-- C2 witness: the amended statement applied to the collected lines
`["a", "b"]` of the concrete example. -/
theorem c2_witness :
    (assembleMultiline "|" false false ["a", "b"]).data.getLast? =
      "b".data.getLast? :=
  c2_clip_appends_no_newline.1 ["a", "b"] "b" rfl (by decide)

/-- C8 counterexample: `LoadOptions(as_native_types=False,
use_ordered_dict=True)` violates none of the three rules listed in the
claim (`use_decimal` is `False`), yet construction fails on the additional
`as_native_types` consistency rule. -/
theorem c8_ordered_dict_without_native_types_rejected :
    LoadOptions.validateConsistency c8LoadCombo =
      .error "use_decimal and use_ordered_dict require as_native_types=True" ∧
    c8LoadCombo.use_decimal = false ∧ c8LoadCombo.parse_numbers = true := by
  exact ⟨rfl, rfl, rfl⟩

/-- C8 amended: `ParseOptions` construction succeeds exactly when
`strict_mode`/`allow_duplicate_keys` and
`include_comment_positions`/`preserve_comments` are consistent, and
`LoadOptions` construction succeeds exactly when, additionally to
`use_decimal` requiring `parse_numbers`, every non-string option
(`use_decimal`, `use_ordered_dict`) has `as_native_types=True`. -/
theorem c8_option_validation :
    (∀ sm pc adk icp : Bool,
      exceptOk (ParseOptions.validate ⟨sm, pc, adk, some 1000, icp, "lf"⟩) =
        (!(sm && adk) && !(icp && !pc))) ∧
    (∀ ad ant pn pb pnl ud uod : Bool,
      exceptOk (LoadOptions.validateConsistency
          ⟨ad, ant, pn, pb, pnl, ud, uod, Option.none, Option.none, Option.none⟩) =
        ((ant || !(ud || uod)) && (!ud || pn))) := by
  constructor
  · decide
  · intro ad ant pn pb pnl ud uod
    cases ad <;> cases ant <;> cases pn <;> cases ud <;> cases uod <;> rfl


theorem skipNewlinesGo_depth (tks : List Token) :
    ∀ (fuel : Nat) (st : PSt), (skipNewlinesGo tks fuel st).depth = st.depth := by
  intro fuel
  induction fuel with
  | zero => intro st; rfl
  | succ n ih =>
    intro st
    simp only [skipNewlinesGo]
    split
    · split
      · rw [ih]
        rfl
      · rfl
    · rfl

theorem skip_newlines_depth (tks : List Token) (st : PSt) :
    (skip_newlines tks st).depth = st.depth :=
  skipNewlinesGo_depth tks _ st

theorem expectTok_depth {tks : List Token} {st : PSt} {tt : TokenType} {st' : PSt}
    (h : expectTok tks st tt = .ok st') : st'.depth = st.depth := by
  unfold expectTok at h
  split at h
  · split at h
    · injection h with h1
      subst h1
      rfl
    · simp at h
  · simp at h

theorem listDepth_append (xs : List JYAMLData) (v : JYAMLData) :
    listDepth (xs ++ [v]) = max (listDepth xs) (valueDepth v) := by
  induction xs with
  | nil => simp [listDepth]
  | cons x rest ih => simp [listDepth, ih, Nat.max_assoc]

theorem add_max_le {a b c m : Nat} (h1 : a + b ≤ m) (h2 : a + c ≤ m) :
    a + max b c ≤ m := by
  rcases Nat.le_total b c with h | h
  · rw [Nat.max_eq_right h]; exact h2
  · rw [Nat.max_eq_left h]; exact h1

theorem pairsDepth_dictSet (items : List (String × JYAMLData)) (k : String) (v : JYAMLData) :
    pairsDepth (dictSet items k v) ≤ max (pairsDepth items) (valueDepth v) := by
  induction items with
  | nil => simp [dictSet, pairsDepth]
  | cons kv rest ih =>
    rcases kv with ⟨k', v'⟩
    simp only [dictSet]
    split
    · simp only [pairsDepth]
      rcases Nat.le_total (valueDepth v) (pairsDepth rest) with h | h
      · rw [Nat.max_eq_right h]
        calc pairsDepth rest ≤ max (valueDepth v') (pairsDepth rest) := Nat.le_max_right _ _
          _ ≤ _ := Nat.le_max_left _ _
      · rw [Nat.max_eq_left h]
        exact Nat.le_max_right _ _
    · simp only [pairsDepth]
      rcases Nat.le_total (valueDepth v') (pairsDepth (dictSet rest k v)) with h | h
      · rw [Nat.max_eq_right h]
        calc pairsDepth (dictSet rest k v) ≤ max (pairsDepth rest) (valueDepth v) := ih
          _ ≤ max (max (valueDepth v') (pairsDepth rest)) (valueDepth v) :=
              max_le_max_right _ (Nat.le_max_right _ _)
      · rw [Nat.max_eq_left h]
        calc valueDepth v' ≤ max (valueDepth v') (pairsDepth rest) := Nat.le_max_left _ _
          _ ≤ _ := Nat.le_max_left _ _


theorem pv_step (o : ParseOptions) (tks : List Token) (m n : Nat)
    (ihfa : PFAprop o tks m n) (ihfo : PFOprop o tks m n)
    (ihba : PBAprop o tks m n) (ihbo : PBOprop o tks m n) :
    PVprop o tks m (n + 1) := by
  intro st0 v st' h
  simp only [parse_value] at h
  split at h
  · simp at h
  · split at h
    · -- NULL
      simp at h
      obtain ⟨hv, hst⟩ := h
      subst hv; subst hst
      exact ⟨skip_newlines_depth tks st0, Or.inr rfl⟩
    · -- TRUE
      simp at h
      obtain ⟨hv, hst⟩ := h
      subst hv; subst hst
      exact ⟨skip_newlines_depth tks st0, Or.inr rfl⟩
    · -- FALSE
      simp at h
      obtain ⟨hv, hst⟩ := h
      subst hv; subst hst
      exact ⟨skip_newlines_depth tks st0, Or.inr rfl⟩
    · -- NUMBER
      split at h
      · split at h
        · simp at h
          obtain ⟨hv, hst⟩ := h
          subst hv; subst hst
          exact ⟨skip_newlines_depth tks st0, Or.inr rfl⟩
        · simp at h
      · simp at h
        obtain ⟨hv, hst⟩ := h
        subst hv; subst hst
        exact ⟨skip_newlines_depth tks st0, Or.inr rfl⟩
    · -- STRING
      split at h
      · obtain ⟨hd, hb⟩ := ihbo _ _ _ h
        rw [skip_newlines_depth] at hd hb
        exact ⟨hd, Or.inl hb⟩
      · simp at h
        obtain ⟨hv, hst⟩ := h
        subst hv; subst hst
        exact ⟨skip_newlines_depth tks st0, Or.inr rfl⟩
    · -- LEFT_BRACKET
      obtain ⟨hd, hb⟩ := ihfa _ _ _ h
      rw [skip_newlines_depth] at hd hb
      exact ⟨hd, Or.inl hb⟩
    · -- LEFT_BRACE
      obtain ⟨hd, hb⟩ := ihfo _ _ _ h
      rw [skip_newlines_depth] at hd hb
      exact ⟨hd, Or.inl hb⟩
    · -- DASH
      obtain ⟨hd, hb⟩ := ihba _ _ _ h
      rw [skip_newlines_depth] at hd hb
      exact ⟨hd, Or.inl hb⟩
    · -- multiline indicators and the catch-all error branch
      simp at h
    · simp at h
    · simp at h
    · simp at h
    · simp at h


theorem advP_depth (st : PSt) : (advP st).depth = st.depth := rfl

theorem pfa_step (o : ParseOptions) (tks : List Token) (m n : Nat)
    (hm : o.max_depth = some m) (ihqa : QFAprop o tks m n) :
    PFAprop o tks m (n + 1) := by
  intro st0 v st' h
  simp only [parse_flow_array, check_depth, hm] at h
  split at h
  · simp at h
  · rename_i hgt
    have hst1 : ({ st0 with depth := st0.depth + 1 } : PSt).depth = st0.depth + 1 := rfl
    split at h
    · simp at h
    · rename_i st2 hexp
      have hd2 : st2.depth = st0.depth + 1 := expectTok_depth hexp
      have hle : st0.depth + 1 ≤ m := by
        split at hgt
        · simp at hgt
        · omega
      split at h
      · simp at h
        obtain ⟨hv, hst⟩ := h
        subst hv; subst hst
        refine ⟨by simp [advP_depth], ?_⟩
        simp [valueDepth, listDepth]
        omega
      · have hd3 : (skip_newlines tks st2).depth = st0.depth + 1 := by
          rw [skip_newlines_depth]; exact hd2
        obtain ⟨hd, items', hv, hb⟩ := ihqa _ _ _ _ h (by omega) (by simp [listDepth]; omega)
        subst hv
        refine ⟨by omega, ?_⟩
        simp only [valueDepth]
        omega

theorem qfa_step (o : ParseOptions) (tks : List Token) (m n : Nat)
    (ihpv : PVprop o tks m n) (ihqa : QFAprop o tks m n) :
    QFAprop o tks m (n + 1) := by
  intro items st v st' h hdm hacc
  simp only [flowArrayLoop] at h
  split at h
  · simp at h
  · rename_i vi stV hpv
    obtain ⟨hdV, hbV⟩ := ihpv _ _ _ hpv
    have hvi : st.depth + valueDepth vi ≤ m := by
      rcases hbV with hb | hb
      · exact hb
      · omega
    have hd1 : (skip_newlines tks stV).depth = st.depth := by
      rw [skip_newlines_depth]; exact hdV
    split at h
    · simp at h
    · split at h
      · simp at h
        obtain ⟨hv, hst⟩ := h
        subst hv; subst hst
        refine ⟨by simp [advP_depth]; omega, items ++ [vi], rfl, ?_⟩
        rw [listDepth_append]
        exact add_max_le hacc hvi
      · split at h
        · split at h
          · simp at h
            obtain ⟨hv, hst⟩ := h
            subst hv; subst hst
            have hd2 : (skip_newlines tks (advP (skip_newlines tks stV))).depth = st.depth := by
              rw [skip_newlines_depth, advP_depth]; exact hd1
            refine ⟨by simp [advP_depth]; omega, items ++ [vi], rfl, ?_⟩
            rw [listDepth_append]
            exact add_max_le hacc hvi
          · have hd2 : (skip_newlines tks (advP (skip_newlines tks stV))).depth = st.depth := by
              rw [skip_newlines_depth, advP_depth]; exact hd1
            obtain ⟨hd, items', hv, hb⟩ := ihqa _ _ _ _ h (by omega)
              (by rw [hd2, listDepth_append]; exact add_max_le hacc hvi)
            subst hv
            exact ⟨by omega, items', rfl, by omega⟩
        · simp at h

theorem pfo_step (o : ParseOptions) (tks : List Token) (m n : Nat)
    (hm : o.max_depth = some m) (ihqo : QFOprop o tks m n) :
    PFOprop o tks m (n + 1) := by
  intro st0 v st' h
  simp only [parse_flow_object, check_depth, hm] at h
  split at h
  · simp at h
  · rename_i hgt
    have hst1 : ({ st0 with depth := st0.depth + 1 } : PSt).depth = st0.depth + 1 := rfl
    split at h
    · simp at h
    · rename_i st2 hexp
      have hd2 : st2.depth = st0.depth + 1 := expectTok_depth hexp
      have hle : st0.depth + 1 ≤ m := by
        split at hgt
        · simp at hgt
        · omega
      split at h
      · simp at h
        obtain ⟨hv, hst⟩ := h
        subst hv; subst hst
        refine ⟨by simp [advP_depth], ?_⟩
        simp [valueDepth, pairsDepth]
        omega
      · have hd3 : (skip_newlines tks st2).depth = st0.depth + 1 := by
          rw [skip_newlines_depth]; exact hd2
        obtain ⟨hd, items', hv, hb⟩ := ihqo _ _ _ _ h (by omega) (by simp [pairsDepth]; omega)
        subst hv
        refine ⟨by omega, ?_⟩
        simp only [valueDepth]
        omega

theorem qfo_step (o : ParseOptions) (tks : List Token) (m n : Nat)
    (ihpv : PVprop o tks m n) (ihqo : QFOprop o tks m n) :
    QFOprop o tks m (n + 1) := by
  intro items st v st' h hdm hacc
  simp only [flowObjectLoop] at h
  split at h
  · simp at h
  · rename_i stK hexpK
    have hdK : stK.depth = st.depth := expectTok_depth hexpK
    split at h
    · simp at h
    · rename_i st2 hexpC
      have hd2 : st2.depth = st.depth := by
        rw [expectTok_depth hexpC, skip_newlines_depth]; exact hdK
      split at h
      · simp at h
      · rename_i vi stV hpv
        obtain ⟨hdV, hbV⟩ := ihpv _ _ _ hpv
        have hdV' : stV.depth = st.depth := by
          rw [hdV, skip_newlines_depth]; exact hd2
        have hvi : st.depth + valueDepth vi ≤ m := by
          rcases hbV with hb | hb
          · rw [skip_newlines_depth, hd2] at hb; exact hb
          · omega
        have hitems1 : st.depth +
            pairsDepth (dictSet items (((curTok tks st).map Token.value).getD "") vi) ≤ m :=
          le_trans (Nat.add_le_add_left (pairsDepth_dictSet items _ vi) _)
            (add_max_le hacc hvi)
        have hd4 : (skip_newlines tks stV).depth = st.depth := by
          rw [skip_newlines_depth]; exact hdV'
        split at h
        · simp at h
        · split at h
          · simp at h
            obtain ⟨hv, hst⟩ := h
            subst hv; subst hst
            exact ⟨by simp [advP_depth]; omega, _, rfl, hitems1⟩
          · split at h
            · split at h
              · simp at h
                obtain ⟨hv, hst⟩ := h
                subst hv; subst hst
                have hd5 : (skip_newlines tks (advP (skip_newlines tks stV))).depth = st.depth := by
                  rw [skip_newlines_depth, advP_depth]; exact hd4
                exact ⟨by simp [advP_depth]; omega, _, rfl, hitems1⟩
              · have hd5 : (skip_newlines tks (advP (skip_newlines tks stV))).depth = st.depth := by
                  rw [skip_newlines_depth, advP_depth]; exact hd4
                obtain ⟨hd, items', hv, hb⟩ := ihqo _ _ _ _ h (by omega) (by rw [hd5]; exact hitems1)
                subst hv
                exact ⟨by omega, items', rfl, by omega⟩
            · split at h
              · obtain ⟨hd, items', hv, hb⟩ := ihqo _ _ _ _ h (by omega) (by rw [hd4]; exact hitems1)
                subst hv
                exact ⟨by omega, items', rfl, by omega⟩
              · simp at h

theorem pba_step (o : ParseOptions) (tks : List Token) (m n : Nat)
    (hm : o.max_depth = some m) (ihqa : QBAprop o tks m n) :
    PBAprop o tks m (n + 1) := by
  intro st0 v st' h
  simp only [parse_block_array, check_depth, hm] at h
  split at h
  · simp at h
  · rename_i hgt
    have hst1 : ({ st0 with depth := st0.depth + 1 } : PSt).depth = st0.depth + 1 := rfl
    have hle : st0.depth + 1 ≤ m := by
      split at hgt
      · simp at hgt
      · omega
    obtain ⟨hd, items', hv, hb⟩ := ihqa _ _ _ _ h hle (by simp [listDepth]; omega)
    subst hv
    refine ⟨by omega, ?_⟩
    simp only [valueDepth]
    omega

theorem qba_step (o : ParseOptions) (tks : List Token) (m n : Nat)
    (ihpv : PVprop o tks m n) (ihqa : QBAprop o tks m n) :
    QBAprop o tks m (n + 1) := by
  intro items st v st' h hdm hacc
  simp only [blockArrayLoop] at h
  split at h
  · split at h
    · simp at h
    · rename_i vi stV hpv
      obtain ⟨hdV, hbV⟩ := ihpv _ _ _ hpv
      have hdV' : stV.depth = st.depth := by
        rw [hdV, skip_newlines_depth, advP_depth]
      have hvi : st.depth + valueDepth vi ≤ m := by
        rcases hbV with hb | hb
        · rw [skip_newlines_depth, advP_depth] at hb; exact hb
        · omega
      have hd2 : (skip_newlines tks stV).depth = st.depth := by
        rw [skip_newlines_depth]; exact hdV'
      obtain ⟨hd, items', hv, hb⟩ := ihqa _ _ _ _ h (by omega)
        (by rw [hd2, listDepth_append]; exact add_max_le hacc hvi)
      subst hv
      exact ⟨by omega, items', rfl, by omega⟩
  · simp at h
    obtain ⟨hv, hst⟩ := h
    subst hv; subst hst
    exact ⟨rfl, items, rfl, hacc⟩

theorem pbo_step (o : ParseOptions) (tks : List Token) (m n : Nat)
    (hm : o.max_depth = some m) (ihqo : QBOprop o tks m n) :
    PBOprop o tks m (n + 1) := by
  intro st0 v st' h
  simp only [parse_block_object, check_depth, hm] at h
  split at h
  · simp at h
  · rename_i hgt
    have hst1 : ({ st0 with depth := st0.depth + 1 } : PSt).depth = st0.depth + 1 := rfl
    have hle : st0.depth + 1 ≤ m := by
      split at hgt
      · simp at hgt
      · omega
    obtain ⟨hd, items', hv, hb⟩ := ihqo _ _ _ _ h hle (by simp [pairsDepth]; omega)
    subst hv
    refine ⟨by omega, ?_⟩
    simp only [valueDepth]
    omega

theorem qbo_step (o : ParseOptions) (tks : List Token) (m n : Nat)
    (ihpv : PVprop o tks m n) (ihqo : QBOprop o tks m n) :
    QBOprop o tks m (n + 1) := by
  intro items st v st' h hdm hacc
  simp only [blockObjectLoop] at h
  split at h
  · split at h
    · simp at h
    · rename_i st2 hexpC
      have hd2 : st2.depth = st.depth := by
        rw [expectTok_depth hexpC, advP_depth]
      split at h
      · simp at h
      · rename_i vi stV hpv
        obtain ⟨hdV, hbV⟩ := ihpv _ _ _ hpv
        have hdV' : stV.depth = st.depth := by rw [hdV]; exact hd2
        have hvi : st.depth + valueDepth vi ≤ m := by
          rcases hbV with hb | hb
          · rw [hd2] at hb; exact hb
          · omega
        have hitems1 : st.depth +
            pairsDepth (dictSet items (((curTok tks st).map Token.value).getD "") vi) ≤ m :=
          le_trans (Nat.add_le_add_left (pairsDepth_dictSet items _ vi) _)
            (add_max_le hacc hvi)
        have hd3 : (skip_newlines tks stV).depth = st.depth := by
          rw [skip_newlines_depth]; exact hdV'
        obtain ⟨hd, items', hv, hb⟩ := ihqo _ _ _ _ h (by omega) (by rw [hd3]; exact hitems1)
        subst hv
        exact ⟨by omega, items', rfl, by omega⟩
  · simp at h
    obtain ⟨hv, hst⟩ := h
    subst hv; subst hst
    exact ⟨rfl, items, rfl, hacc⟩


theorem depth_guard_all (o : ParseOptions) (tks : List Token) (m : Nat)
    (hm : o.max_depth = some m) :
    ∀ n, PVprop o tks m n ∧ PFAprop o tks m n ∧ QFAprop o tks m n ∧
      PFOprop o tks m n ∧ QFOprop o tks m n ∧ PBAprop o tks m n ∧
      QBAprop o tks m n ∧ PBOprop o tks m n ∧ QBOprop o tks m n := by
  intro n
  induction n with
  | zero =>
    refine ⟨?_, ?_, ?_, ?_, ?_, ?_, ?_, ?_, ?_⟩
    · intro st v st' h; simp [parse_value] at h
    · intro st v st' h; simp [parse_flow_array] at h
    · intro items st v st' h h1 h2; simp [flowArrayLoop] at h
    · intro st v st' h; simp [parse_flow_object] at h
    · intro items st v st' h h1 h2; simp [flowObjectLoop] at h
    · intro st v st' h; simp [parse_block_array] at h
    · intro items st v st' h h1 h2; simp [blockArrayLoop] at h
    · intro st v st' h; simp [parse_block_object] at h
    · intro items st v st' h h1 h2; simp [blockObjectLoop] at h
  | succ n ih =>
    obtain ⟨ipv, ipfa, iqfa, ipfo, iqfo, ipba, iqba, ipbo, iqbo⟩ := ih
    exact ⟨pv_step o tks m n ipfa ipfo ipba ipbo,
           pfa_step o tks m n hm iqfa,
           qfa_step o tks m n ipv iqfa,
           pfo_step o tks m n hm iqfo,
           qfo_step o tks m n ipv iqfo,
           pba_step o tks m n hm iqba,
           qba_step o tks m n ipv iqba,
           pbo_step o tks m n hm iqbo,
           qbo_step o tks m n ipv iqbo⟩

theorem runParse_depth_bound (o : ParseOptions) (ps : ParserS) (m : Nat)
    (hm : o.max_depth = some m) (doc : ParsedDocument)
    (h : runParse o ps = .ok doc) : valueDepth doc.data ≤ m := by
  simp only [runParse] at h
  split at h
  · simp at h
    subst h
    simp [valueDepth]
  · split at h
    · simp at h
      subst h
      simp [valueDepth]
    · split at h
      · simp at h
      · rename_i root st1 hpv
        have hdep := ((depth_guard_all o ps.tokens m hm (parseFuel ps.tokens)).1
          _ _ _ hpv).2
        have hd0 : (skip_newlines ps.tokens ⟨0, 0⟩).depth = 0 := by
          rw [skip_newlines_depth]
        rw [hd0] at hdep
        have hroot : valueDepth root ≤ m := by omega
        split at h
        · split at h
          · simp at h
          · simp at h
            subst h
            exact hroot
        · simp at h
          subst h
          exact hroot


theorem c3_depth_guard :
    (∀ (text : String) (o : ParseOptions) (m : Nat) (doc : ParsedDocument),
      o.max_depth = some m → parse text o = .ok doc → valueDepth doc.data ≤ m) ∧
    parse depthInput depth3Opts =
      .error (.parseErr ⟨"Maximum nesting depth exceeded: 3", Option.none, Option.none⟩) := by
  constructor
  · intro text o m doc hm h
    unfold parse at h
    split at h
    · simp at h
    · split at h
      · simp at h
      · rename_i x1 ps hinit x2 doc2 hrp
        simp at h
        subst h
        exact runParse_depth_bound o ps m hm doc2 hrp
  · rfl

theorem c3_witness : valueDepth (JYAMLData.arr []) ≤ 3 :=
  c3_depth_guard.1 "[]" depth3Opts 3 ⟨.arr [], [], Option.none⟩ rfl rfl

end JYaml
